import Mathlib

/-!
Verification of the secure session layer of FreeViewer.

The Rust source is embedded shallowly:

* `std::time::SystemTime` is modelled as `Nat` (seconds); `SystemTime::now()`
  becomes an explicit `now : Nat` argument.
* The `HashMap<String, Session>` registries become functions
  `String → Option Session` (a `HashMap` has unique keys, so the pointwise
  view is exact); `insert`, `get_mut` and `retain` are translated pointwise.
* Random values produced inside a function (UUID session tokens, the random
  `u32` behind an access code, the fresh AES-GCM nonce) become explicit
  arguments, since the Rust code treats them as opaque fresh data.
* The external `aes_gcm` and `argon2` crates are not part of this repository;
  they are modelled abstractly (`Aead`, `ArgonOracle`) and theorems that need
  their documented contracts take those contracts as hypotheses.
-/

namespace FreeViewer

/-- `Session` from `src/security/authentication.rs`. -/
structure Session where
  token : String
  user_id : String
  created_at : Nat
  expires_at : Nat
  is_active : Bool
deriving DecidableEq, Repr

/-- `User` from `src/security/authentication.rs`. -/
structure User where
  id : String
  password_hash : String
  created_at : Nat
  last_login : Option Nat
  is_active : Bool
deriving DecidableEq, Repr

/-- `AuthError` from `src/security/authentication.rs`. -/
inductive AuthError where
  | InvalidCredentials
  | UserExists
  | UserInactive
  | InvalidSession
  | SessionInactive
  | SessionExpired
  | HashingFailed (msg : String)
  | DatabaseError (msg : String)
deriving DecidableEq, Repr

/-- The `sessions : RwLock<HashMap<String, Session>>` registry, viewed pointwise. -/
abbrev SessionMap := String → Option Session

/-- `HashMap::insert` on the pointwise view of the registry. -/
def insertSession (m : SessionMap) (k : String) (s : Session) : SessionMap :=
  fun q => if q = k then some s else m q

/-- `AuthManager::validate_session` (authentication.rs lines 103-116):
look the token up, reject an inactive session with `SessionInactive`,
reject a session with `expires_at < now` with `SessionExpired`,
otherwise return (a clone of) the session. -/
def validate_session (sessions : SessionMap) (now : Nat) (token : String) :
    Except AuthError Session :=
  match sessions token with
  | none => .error .InvalidSession
  | some session =>
    if session.is_active = false then .error .SessionInactive
    else if session.expires_at < now then .error .SessionExpired
    else .ok session

/-- `AuthManager::revoke_session` (authentication.rs lines 119-125):
if the token is present flip its `is_active` to `false`; always return `Ok(())`. -/
def revoke_session (sessions : SessionMap) (token : String) :
    Except AuthError Unit × SessionMap :=
  (.ok (),
   fun q => if q = token
            then (sessions token).map (fun s => { s with is_active := false })
            else sessions q)

/-- `AuthManager::cleanup_expired_sessions` (authentication.rs lines 128-135):
`sessions.retain(|_, s| s.is_active && s.expires_at > now)`, viewed pointwise. -/
def cleanup_expired_sessions (sessions : SessionMap) (now : Nat) : SessionMap :=
  fun q => match sessions q with
    | some session =>
        if session.is_active = true ∧ session.expires_at > now
        then some session else none
    | none => none

/- Concrete registries used by witnesses and counterexamples. -/

/-- An active session whose expiry time is exactly 100. -/
def sessBoundary : Session := ⟨"t", "u", 0, 100, true⟩

/-- A registry holding only `sessBoundary` under token `"t"`. -/
def mapBoundary : SessionMap := fun q => if q = "t" then some sessBoundary else none

theorem validate_session_eq_ok (m : SessionMap) (now : Nat) (tok : String) (s : Session) :
    validate_session m now tok = .ok s ↔
      m tok = some s ∧ s.is_active = true ∧ now ≤ s.expires_at := by
  unfold validate_session
  cases h : m tok with
  | none => simp
  | some session =>
    dsimp only
    constructor
    · intro hv
      by_cases ha : session.is_active = false
      · rw [if_pos ha] at hv
        exact absurd hv (by simp)
      · rw [if_neg ha] at hv
        by_cases he : session.expires_at < now
        · rw [if_pos he] at hv
          exact absurd hv (by simp)
        · rw [if_neg he] at hv
          injection hv with hv
          subst hv
          exact ⟨rfl, by simpa using ha, by omega⟩
    · rintro ⟨hs, ha, he⟩
      have hs2 : session = s := by injection hs
      have hna : ¬ session.is_active = false := by rw [hs2]; simp [ha]
      have hne : ¬ session.expires_at < now := by rw [hs2]; omega
      rw [if_neg hna, if_neg hne, hs2]

theorem validate_session_expired (m : SessionMap) (now : Nat) (tok : String) (s : Session)
    (hs : m tok = some s) (ha : s.is_active = true) (he : s.expires_at < now) :
    validate_session m now tok = .error .SessionExpired := by
  unfold validate_session
  rw [hs]
  dsimp only
  have hna : ¬ s.is_active = false := by simp [ha]
  rw [if_neg hna, if_pos he]

/-- C2 (amended): `validate_session` returns a session exactly when it is
present, active, and `now ≤ expires_at`; and a present, active session with
`expires_at < now` is rejected with `SessionExpired`. -/
theorem C2_validate_session_spec (m : SessionMap) (now : Nat) (tok : String) :
    (∀ s : Session, validate_session m now tok = .ok s ↔
        (m tok = some s ∧ s.is_active = true ∧ now ≤ s.expires_at)) ∧
    (∀ s : Session, m tok = some s → s.is_active = true → s.expires_at < now →
        validate_session m now tok = .error .SessionExpired) :=
  ⟨fun s => validate_session_eq_ok m now tok s,
   fun s hs ha he => validate_session_expired m now tok s hs ha he⟩

/-- C2 witness: an active session with `expires_at = 100` is rejected with
`SessionExpired` at time 200. -/
theorem C2_witness : validate_session mapBoundary 200 "t" = .error .SessionExpired :=
  (C2_validate_session_spec mapBoundary 200 "t").2 sessBoundary rfl rfl (by decide)

/-- C2 counterexample: at `now = expires_at = 100` the current time is not
strictly before `expires_at`, yet `validate_session` returns the session,
refuting the claimed strict-inequality characterisation. -/
theorem C2_counterexample :
    validate_session mapBoundary 100 "t" = .ok sessBoundary ∧
    ¬ (100 < sessBoundary.expires_at) := by
  constructor
  · rfl
  · decide

/-- C6: a sweep removes exactly the sessions that are inactive or whose
`expires_at` is at or before `now`, and leaves every other session present
and unmodified. -/
theorem C6_cleanup_spec (m : SessionMap) (now : Nat) (q : String) :
    (∀ s : Session, m q = some s → (s.is_active = false ∨ s.expires_at ≤ now) →
        cleanup_expired_sessions m now q = none) ∧
    (∀ s : Session, m q = some s → s.is_active = true → now < s.expires_at →
        cleanup_expired_sessions m now q = some s) ∧
    (m q = none → cleanup_expired_sessions m now q = none) := by
  refine ⟨?_, ?_, ?_⟩
  · intro s hs hrem
    unfold cleanup_expired_sessions
    have hnot : ¬ (s.is_active = true ∧ s.expires_at > now) := by
      rintro ⟨h1, h2⟩
      rcases hrem with h | h
      · rw [h] at h1; cases h1
      · omega
    rw [hs]
    dsimp only
    rw [if_neg hnot]
  · intro s hs ha he
    unfold cleanup_expired_sessions
    have hyes : s.is_active = true ∧ s.expires_at > now := ⟨ha, he⟩
    rw [hs]
    dsimp only
    rw [if_pos hyes]
  · intro hn
    unfold cleanup_expired_sessions
    rw [hn]

/-- C6 witness: sweeping at time 100 removes the session expiring at 100
and keeps a session expiring at 101. -/
theorem C6_witness :
    cleanup_expired_sessions mapBoundary 100 "t" = none ∧
    cleanup_expired_sessions (insertSession mapBoundary "t2" ⟨"t2", "u", 0, 101, true⟩) 100 "t2"
      = some ⟨"t2", "u", 0, 101, true⟩ := by
  constructor
  · exact (C6_cleanup_spec mapBoundary 100 "t").1 sessBoundary rfl (Or.inr (by decide))
  · exact (C6_cleanup_spec (insertSession mapBoundary "t2" ⟨"t2", "u", 0, 101, true⟩) 100 "t2").2.1
      ⟨"t2", "u", 0, 101, true⟩ rfl rfl (by decide)

/-- C10: `revoke_session` always returns `Ok(())`; when the token is present
it changes only that session's `is_active` flag to `false` (all other fields
and all other sessions unchanged), and when the token is absent the registry
is left entirely unchanged. -/
theorem C10_revoke_session_spec (m : SessionMap) (tok : String) :
    (revoke_session m tok).1 = .ok () ∧
    (∀ s : Session, m tok = some s →
        (revoke_session m tok).2 tok =
          some ⟨s.token, s.user_id, s.created_at, s.expires_at, false⟩) ∧
    (∀ q : String, q ≠ tok → (revoke_session m tok).2 q = m q) ∧
    (m tok = none → ∀ q : String, (revoke_session m tok).2 q = m q) := by
  refine ⟨rfl, ?_, ?_, ?_⟩
  · intro s hs
    show (if tok = tok then (m tok).map _ else m tok) = _
    rw [if_pos rfl, hs]
    rfl
  · intro q hq
    show (if q = tok then _ else m q) = m q
    rw [if_neg hq]
  · intro hn q
    show (if q = tok then (m tok).map _ else m q) = m q
    by_cases hq : q = tok
    · rw [if_pos hq, hq, hn]
      rfl
    · rw [if_neg hq]

/-- C10 witness: revoking the present token `"t"` flips only its flag, leaves
token `"x"` untouched, and revoking an absent token changes nothing. -/
theorem C10_witness :
    (revoke_session mapBoundary "t").1 = .ok () ∧
    (revoke_session mapBoundary "t").2 "t" = some ⟨"t", "u", 0, 100, false⟩ ∧
    (revoke_session mapBoundary "t").2 "x" = mapBoundary "x" ∧
    (revoke_session mapBoundary "missing").2 "t" = mapBoundary "t" := by
  refine ⟨(C10_revoke_session_spec mapBoundary "t").1, ?_, ?_, ?_⟩
  · exact (C10_revoke_session_spec mapBoundary "t").2.1 sessBoundary rfl
  · exact (C10_revoke_session_spec mapBoundary "t").2.2.1 "x" (by decide)
  · exact (C10_revoke_session_spec mapBoundary "missing").2.2.2 rfl "t"

/-! Authentication (`AuthManager::authenticate`, authentication.rs lines 67-100).
The `argon2` crate is external to the repository; its two operations used by
`authenticate` — `PasswordHash::new` (parsing the stored hash string) and
`Argon2::verify_password` — are modelled by an abstract oracle. -/

/-- Abstract model of the `argon2` crate operations used by `authenticate`:
`parseOk h` models `PasswordHash::new(&h).is_ok()`, `parseErr h` the error
message otherwise, and `verify pw h` models
`argon2.verify_password(pw, &parsed_hash).is_ok()`. -/
structure ArgonOracle where
  parseOk : String → Bool
  parseErr : String → String
  verify : String → String → Bool

/-- The mutable state of `AuthManager`: the `sessions` and `users` registries. -/
structure AuthState where
  sessions : SessionMap
  users : String → Option User

/-- `AuthManager::authenticate` (authentication.rs lines 67-100): look the user
up (`InvalidCredentials` if absent), reject an inactive user with
`UserInactive`, parse the stored hash (`HashingFailed` on failure), verify the
password (`InvalidCredentials` on mismatch), then update `last_login`, create a
one-hour session under the fresh token `newToken` (the UUID), and insert it.
Error paths leave the state unchanged. -/
def authenticate (A : ArgonOracle) (st : AuthState) (now : Nat) (newToken : String)
    (id password : String) : Except AuthError String × AuthState :=
  match st.users id with
  | none => (.error .InvalidCredentials, st)
  | some user =>
    if user.is_active = false then (.error .UserInactive, st)
    else if A.parseOk user.password_hash = false then
      (.error (.HashingFailed (A.parseErr user.password_hash)), st)
    else if A.verify password user.password_hash = false then
      (.error .InvalidCredentials, st)
    else
      (.ok newToken,
       { users := fun q => if q = id
                           then some { user with last_login := some now }
                           else st.users q,
         sessions := insertSession st.sessions newToken
           ⟨newToken, id, now, now + 3600, true⟩ })

/-- An oracle whose password verification always fails (every password is
wrong) and whose hash parsing always succeeds. -/
def oracleReject : ArgonOracle := ⟨fun _ => true, fun _ => "", fun _ _ => false⟩

/-- An oracle for which every stored hash string fails to parse, with the PHC
format error message of the `password_hash` crate. -/
def oracleBadHash : ArgonOracle := ⟨fun _ => false, fun _ => "invalid encoding", fun _ _ => false⟩

/-- An inactive user record. -/
def userInactive : User := ⟨"alice", "h", 0, none, false⟩

/-- An auth state holding only the inactive user `"alice"`. -/
def stInactive : AuthState :=
  ⟨fun _ => none, fun q => if q = "alice" then some userInactive else none⟩

/-- An active user record (whose stored hash `oracleBadHash` fails to parse). -/
def userActive : User := ⟨"bob", "nothash", 0, none, true⟩

/-- An auth state holding only the active user `"bob"`. -/
def stActive : AuthState :=
  ⟨fun _ => none, fun q => if q = "bob" then some userActive else none⟩

/-- The empty auth state: no users, no sessions. -/
def stEmpty : AuthState := ⟨fun _ => none, fun _ => none⟩

/-- C3 (amended): when the identity has no user record, and when the identity
names an active user whose stored hash parses but whose password fails
verification, `authenticate` returns the same single variant
`InvalidCredentials`. (An inactive user yields `UserInactive` instead.) -/
theorem C3_same_error_variant (A : ArgonOracle) (st : AuthState) (now : Nat)
    (newToken id password : String)
    (h : st.users id = none ∨
         ∃ u : User, st.users id = some u ∧ u.is_active = true ∧
           A.parseOk u.password_hash = true ∧ A.verify password u.password_hash = false) :
    (authenticate A st now newToken id password).1 = .error .InvalidCredentials := by
  unfold authenticate
  rcases h with h | ⟨u, hu, ha, hp, hv⟩
  · rw [h]
  · rw [hu]
    dsimp only
    have h1 : ¬ u.is_active = false := by simp [ha]
    have h2 : ¬ A.parseOk u.password_hash = false := by simp [hp]
    rw [if_neg h1, if_neg h2, if_pos hv]

/-- C3 witness: an unknown identity, and an active user with a wrong password,
both get `InvalidCredentials`. -/
theorem C3_witness :
    (authenticate oracleReject stEmpty 0 "tok" "nobody" "pw").1
      = .error .InvalidCredentials ∧
    (authenticate oracleReject stActive 0 "tok" "bob" "wrongpw").1
      = .error .InvalidCredentials := by
  constructor
  · exact C3_same_error_variant oracleReject stEmpty 0 "tok" "nobody" "pw" (Or.inl rfl)
  · exact C3_same_error_variant oracleReject stActive 0 "tok" "bob" "wrongpw"
      (Or.inr ⟨userActive, rfl, rfl, rfl, rfl⟩)

/-- C3 counterexample: the identity `"alice"` has a user record and the
password fails verification, yet `authenticate` returns `UserInactive`,
not `InvalidCredentials` — refuting the claim for inactive user records. -/
theorem C3_counterexample :
    (stInactive.users "alice").isSome = true ∧
    oracleReject.verify "pw" userInactive.password_hash = false ∧
    (authenticate oracleReject stInactive 0 "tok" "alice" "pw").1
      = .error .UserInactive ∧
    AuthError.UserInactive ≠ AuthError.InvalidCredentials := by
  refine ⟨rfl, rfl, rfl, by decide⟩

/-- C4: `authenticate` does not fail closed — an inactive user record and a
stored hash that fails to parse each surface as their own distinct error
variants (`UserInactive`, `HashingFailed` carrying the internal parse error),
both distinguishable from the `InvalidCredentials` a wrong password gets. -/
theorem C4_internal_errors_leak :
    (authenticate oracleReject stInactive 0 "tok" "alice" "pw").1
      = .error .UserInactive ∧
    (authenticate oracleBadHash stActive 0 "tok" "bob" "pw").1
      = .error (.HashingFailed "invalid encoding") ∧
    AuthError.UserInactive ≠ AuthError.InvalidCredentials ∧
    AuthError.HashingFailed "invalid encoding" ≠ AuthError.InvalidCredentials := by
  refine ⟨rfl, rfl, by decide, by decide⟩

/-! Encryption (`SecurityManager`, src/security/mod.rs, and
`ProtocolEncryption`, src/protocol/encryption.rs).  Bytes are `List Nat`.
The keyed AES-256-GCM cipher of the external `aes_gcm` crate is modelled
abstractly; the nonce drawn from `OsRng` by `encrypt` is an explicit
argument. -/

/-- Abstract model of a keyed AES-256-GCM cipher (`Aes256Gcm`): authenticated
encryption and decryption under a fixed key, as functions of the nonce.
`dec` returns `none` on authentication failure. -/
structure Aead where
  enc : List Nat → List Nat → Option (List Nat)
  dec : List Nat → List Nat → Option (List Nat)

/-- `SecurityError` from `src/security/mod.rs`. -/
inductive SecurityError where
  | NotInitialized
  | EncryptionFailed (msg : String)
  | DecryptionFailed (msg : String)
  | InvalidData
  | AuthenticationFailed
  | CertificateError (msg : String)
  | KeyGenerationFailed
deriving DecidableEq, Repr

/-- The `thiserror`-derived display strings of `SecurityError`
(`e.to_string()` in the source). -/
def SecurityError.toMessage : SecurityError → String
  | .NotInitialized => "Security manager not initialized"
  | .EncryptionFailed m => "Encryption failed: " ++ m
  | .DecryptionFailed m => "Decryption failed: " ++ m
  | .InvalidData => "Invalid data format"
  | .AuthenticationFailed => "Authentication failed"
  | .CertificateError m => "Certificate error: " ++ m
  | .KeyGenerationFailed => "Key generation failed"

/-- `SecurityManager` from `src/security/mod.rs`, restricted to the `cipher`
field (its `auth_manager` and `cert_manager` fields are modelled separately
and are untouched by `encrypt`/`decrypt`). -/
structure SecurityManager where
  cipher : Option Aead

/-- `SecurityManager::new`: no cipher installed. -/
def SecurityManager.new : SecurityManager := ⟨none⟩

/-- `SecurityManager::init_encryption` (mod.rs lines 30-34): install the
AES-256-GCM cipher keyed with `key`.  `newCipher` models
`Aes256Gcm::new(Key::from_slice(key))` of the external crate. -/
def SecurityManager.init_encryption (newCipher : List Nat → Aead)
    (sm : SecurityManager) (key : List Nat) :
    Except SecurityError Unit × SecurityManager :=
  (.ok (), { sm with cipher := some (newCipher key) })

/-- `SecurityManager::encrypt` (mod.rs lines 44-57): fail with
`NotInitialized` if no cipher is installed; otherwise encrypt under a fresh
nonce and prepend the nonce to the ciphertext.  The display string of the
opaque `aead::Error` is `"aead::Error"`. -/
def SecurityManager.encrypt (sm : SecurityManager) (nonce data : List Nat) :
    Except SecurityError (List Nat) :=
  match sm.cipher with
  | none => .error .NotInitialized
  | some c =>
    match c.enc nonce data with
    | none => .error (.EncryptionFailed "aead::Error")
    | some ciphertext => .ok (nonce ++ ciphertext)

/-- `SecurityManager::decrypt` (mod.rs lines 60-76): fail with
`NotInitialized` if no cipher is installed; reject inputs shorter than the
12-byte nonce with `InvalidData`; otherwise `split_at(12)` and decrypt. -/
def SecurityManager.decrypt (sm : SecurityManager) (data : List Nat) :
    Except SecurityError (List Nat) :=
  match sm.cipher with
  | none => .error .NotInitialized
  | some c =>
    if data.length < 12 then .error .InvalidData
    else
      match c.dec (data.take 12) (data.drop 12) with
      | none => .error (.DecryptionFailed "aead::Error")
      | some plaintext => .ok plaintext

/-- `EncryptionError` from `src/protocol/encryption.rs`. -/
inductive EncryptionError where
  | InitFailed (msg : String)
  | EncryptFailed (msg : String)
  | DecryptFailed (msg : String)
deriving DecidableEq, Repr

/-- `ProtocolEncryption` from `src/protocol/encryption.rs`. -/
structure ProtocolEncryption where
  security_manager : SecurityManager
  is_enabled : Bool

/-- `ProtocolEncryption::new`: a fresh `SecurityManager` and
`is_enabled: true`. -/
def ProtocolEncryption.new : ProtocolEncryption := ⟨SecurityManager.new, true⟩

/-- `ProtocolEncryption::encrypt_data` (encryption.rs lines 30-37): return
the data unchanged when disabled, otherwise delegate and wrap errors. -/
def ProtocolEncryption.encrypt_data (pe : ProtocolEncryption) (nonce data : List Nat) :
    Except EncryptionError (List Nat) :=
  if pe.is_enabled = false then .ok data
  else
    match pe.security_manager.encrypt nonce data with
    | .error e => .error (.EncryptFailed e.toMessage)
    | .ok v => .ok v

/-- `ProtocolEncryption::decrypt_data` (encryption.rs lines 39-46): return
the data unchanged when disabled, otherwise delegate and wrap errors. -/
def ProtocolEncryption.decrypt_data (pe : ProtocolEncryption) (data : List Nat) :
    Except EncryptionError (List Nat) :=
  if pe.is_enabled = false then .ok data
  else
    match pe.security_manager.decrypt data with
    | .error e => .error (.DecryptFailed e.toMessage)
    | .ok v => .ok v

/-- A degenerate keyed cipher (encryption is the identity), used only to
instantiate hypotheses of the theorems below at a concrete input. -/
def aeadId : Aead := ⟨fun _ p => some p, fun _ ctext => some ctext⟩

/-- The cipher constructor that ignores its key and yields `aeadId`. -/
def newCipherId : List Nat → Aead := fun _ => aeadId

/-- A `ProtocolEncryption` with encryption explicitly disabled. -/
def peDisabled : ProtocolEncryption := ⟨SecurityManager.new, false⟩

/-- C1: for every key installed via `init_encryption` and every plaintext,
decrypting the output of `encrypt` with the same manager returns exactly the
plaintext.  The AEAD correctness contract of the external `aes_gcm` crate
(decryption under the same key and nonce inverts encryption) and the 12-byte
length of the generated nonce are hypotheses. -/
theorem C1_decrypt_encrypt_roundtrip (newCipher : List Nat → Aead)
    (hcontract : ∀ key nonce p ct, (newCipher key).enc nonce p = some ct →
        (newCipher key).dec nonce ct = some p)
    (key : List Nat) (hkey : key.length = 32)
    (nonce : List Nat) (hnonce : nonce.length = 12)
    (P ct : List Nat)
    (henc : ((SecurityManager.init_encryption newCipher SecurityManager.new key).2).encrypt
        nonce P = .ok ct) :
    ((SecurityManager.init_encryption newCipher SecurityManager.new key).2).decrypt ct
      = .ok P := by
  unfold SecurityManager.init_encryption SecurityManager.encrypt at henc
  dsimp only at henc
  cases hoe : (newCipher key).enc nonce P with
  | none =>
    rw [hoe] at henc
    exact absurd henc (by simp)
  | some ctext =>
    rw [hoe] at henc
    injection henc with henc
    subst henc
    unfold SecurityManager.init_encryption SecurityManager.decrypt
    dsimp only
    have hlen : ¬ (nonce ++ ctext).length < 12 := by
      rw [List.length_append, hnonce]; omega
    rw [if_neg hlen]
    have htake : (nonce ++ ctext).take 12 = nonce := by
      rw [← hnonce]; exact List.take_left nonce ctext
    have hdrop : (nonce ++ ctext).drop 12 = ctext := by
      rw [← hnonce]; exact List.drop_left nonce ctext
    rw [htake, hdrop, hcontract key nonce P ctext hoe]

/-- C1 witness: with the identity cipher, a 32-byte key, a 12-byte nonce and
plaintext `[1, 2, 3]`, the round trip returns exactly `[1, 2, 3]`. -/
theorem C1_witness :
    ((SecurityManager.init_encryption newCipherId SecurityManager.new
        (List.replicate 32 0)).2).decrypt (List.replicate 12 0 ++ [1, 2, 3])
      = .ok [1, 2, 3] :=
  C1_decrypt_encrypt_roundtrip newCipherId
    (fun _ _ _ _ h => h.symm)
    (List.replicate 32 0) (by simp)
    (List.replicate 12 0) (by simp)
    [1, 2, 3] (List.replicate 12 0 ++ [1, 2, 3]) rfl

/-- C5: with no cipher installed both `encrypt` and `decrypt` fail with
`NotInitialized`; a disabled `ProtocolEncryption` passes data through
unchanged; an enabled one with an uninitialized manager reports the wrapped
`NotInitialized` error rather than passing data through; and a freshly
constructed `ProtocolEncryption` has encryption enabled. -/
theorem C5_not_initialized (nonce data : List Nat) (pe : ProtocolEncryption) :
    SecurityManager.new.encrypt nonce data = .error .NotInitialized ∧
    SecurityManager.new.decrypt data = .error .NotInitialized ∧
    ProtocolEncryption.new.is_enabled = true ∧
    (pe.is_enabled = false →
        pe.encrypt_data nonce data = .ok data ∧ pe.decrypt_data data = .ok data) ∧
    (pe.is_enabled = true → pe.security_manager.cipher = none →
        pe.encrypt_data nonce data
          = .error (.EncryptFailed "Security manager not initialized") ∧
        pe.decrypt_data data
          = .error (.DecryptFailed "Security manager not initialized")) := by
  refine ⟨rfl, rfl, rfl, ?_, ?_⟩
  · intro hdis
    unfold ProtocolEncryption.encrypt_data ProtocolEncryption.decrypt_data
    rw [hdis]
    exact ⟨rfl, rfl⟩
  · intro hen hnone
    unfold ProtocolEncryption.encrypt_data ProtocolEncryption.decrypt_data
    have hne : ¬ pe.is_enabled = false := by simp [hen]
    rw [if_neg hne, if_neg hne]
    unfold SecurityManager.encrypt SecurityManager.decrypt
    rw [hnone]
    exact ⟨rfl, rfl⟩

/-- C5 witness: a disabled instance passes `[5]` through; a fresh (enabled,
uninitialized) instance fails with the wrapped `NotInitialized` message. -/
theorem C5_witness :
    peDisabled.encrypt_data (List.replicate 12 0) [5] = .ok [5] ∧
    ProtocolEncryption.new.encrypt_data (List.replicate 12 0) [5]
      = .error (.EncryptFailed "Security manager not initialized") := by
  constructor
  · exact ((C5_not_initialized (List.replicate 12 0) [5] peDisabled).2.2.2.1 rfl).1
  · exact ((C5_not_initialized (List.replicate 12 0) [5] ProtocolEncryption.new).2.2.2.2
      rfl rfl).1

/-- C7: `decrypt` is total on byte strings: any input shorter than the fixed
12-byte nonce is rejected with `InvalidData` by an initialized manager,
whatever the cipher (so the underlying AEAD is never consulted), and no
manager returns a plaintext for it. -/
theorem C7_decrypt_rejects_short (sm : SecurityManager) (data : List Nat)
    (h : data.length < 12) :
    (∀ c : Aead, (SecurityManager.mk (some c)).decrypt data = .error .InvalidData) ∧
    (∃ e : SecurityError, sm.decrypt data = .error e) := by
  constructor
  · intro c
    unfold SecurityManager.decrypt
    dsimp only
    rw [if_pos h]
  · obtain ⟨co⟩ := sm
    cases co with
    | none => exact ⟨.NotInitialized, rfl⟩
    | some c =>
      refine ⟨.InvalidData, ?_⟩
      unfold SecurityManager.decrypt
      dsimp only
      rw [if_pos h]

/-- C7 witness: the 3-byte input `[0, 1, 2]` is rejected with `InvalidData`
by a manager holding the identity cipher. -/
theorem C7_witness :
    (SecurityManager.mk (some aeadId)).decrypt [0, 1, 2] = .error .InvalidData :=
  (C7_decrypt_rejects_short (SecurityManager.mk (some aeadId)) [0, 1, 2]
    (by decide)).1 aeadId

/-! Connection state machine (`ConnectionManager::connect`,
src/client/connection_manager.rs lines 15-31). -/

/-- `ConnectionState` from `src/protocol/mod.rs`. -/
inductive ConnectionState where
  | Disconnected
  | Connecting
  | Authenticating
  | Connected
  | Error (reason : String)
deriving DecidableEq, Repr

/-- `ConnectionError` from `src/client/connection_manager.rs`. -/
inductive ConnectionError where
  | NotConnected
  | AuthenticationFailed
  | NetworkError (msg : String)
  | Timeout
deriving DecidableEq, Repr

/-- `ConnectionManager` from `src/client/connection_manager.rs`. -/
structure ConnectionManager where
  state : ConnectionState
deriving DecidableEq, Repr

/-- `ConnectionManager::new`: starts `Disconnected`. -/
def ConnectionManager.new : ConnectionManager := ⟨.Disconnected⟩

/-- `ConnectionManager::connect` (connection_manager.rs lines 15-31): set
`state` to `Connecting`; then, if the password is empty, set `state` to
`Error("Invalid password")` and return `Err(AuthenticationFailed)`, otherwise
set `state` to `Connected` and return `Ok(())`.  Besides the result and the
final manager, the full ordered list of states assigned to `self.state`
during the call is returned, so that the transition sequence itself can be
stated. -/
def ConnectionManager.connect (cm : ConnectionManager) (partner_id password : String) :
    Except ConnectionError Unit × ConnectionManager × List ConnectionState :=
  let s1 := ConnectionState.Connecting
  if password.isEmpty = true then
    (.error .AuthenticationFailed, ⟨.Error "Invalid password"⟩,
     [s1, .Error "Invalid password"])
  else
    ((.ok (), ⟨.Connected⟩, [s1, .Connected]) :
      Except ConnectionError Unit × ConnectionManager × List ConnectionState)

/-- C8 (code bug): a successful `connect` assigns exactly
`Connecting, Connected` — the state never passes through `Authenticating` —
and a failed `connect` (empty password) leaves the final state at
`Error("Invalid password")`, which is not `Disconnected`; both contradict
the specified transition sequence. -/
theorem C8_connect_skips_transitions :
    (ConnectionManager.new.connect "partner" "secret").2.2
      = [ConnectionState.Connecting, ConnectionState.Connected] ∧
    ConnectionState.Authenticating ∉ (ConnectionManager.new.connect "partner" "secret").2.2 ∧
    (ConnectionManager.new.connect "partner" "").2.1.state
      = ConnectionState.Error "Invalid password" ∧
    ConnectionState.Error "Invalid password" ≠ ConnectionState.Disconnected := by
  refine ⟨rfl, by decide, rfl, by decide⟩

/-! Access codes (`AuthManager::generate_access_code`, authentication.rs
lines 138-154).  The `rand::random::<u32>()` value is an explicit argument
`r`; `format!` with the `06` width spec is modelled by `format06`. -/

/-- Decimal digits of `n`, most significant first — the digit sequence the
`format!` decimal formatter prints. -/
def decimalDigits (n : Nat) : List Nat :=
  if h : n < 10 then [n]
  else decimalDigits (n / 10) ++ [n % 10]
decreasing_by
  exact Nat.div_lt_self (by omega) (by omega)

/-- The character for the decimal digit `d`. -/
def digitChar (d : Nat) : Char := Char.ofNat (48 + d)

/-- `format!` with the `{:06}` width spec: the decimal rendering of `n`,
left-padded with zero characters to a minimum width of 6. -/
def format06 (n : Nat) : String :=
  let ds := (decimalDigits n).map digitChar
  String.mk (List.replicate (6 - ds.length) '0' ++ ds)

/-- The `code` value computed by `generate_access_code` from the random
`u32` value `r`: `format!` of `r % 1_000_000` with the `06` spec. -/
def accessCode (r : Nat) : String := format06 (r % 1000000)

/-- `AuthManager::generate_access_code` (authentication.rs lines 138-154):
build the 6-digit code, store it as a session for `user_id` expiring 300
seconds from now, and return the code. -/
def generate_access_code (sessions : SessionMap) (now : Nat) (r : Nat)
    (user_id : String) : Except AuthError String × SessionMap :=
  let code := accessCode r
  (.ok code, insertSession sessions code ⟨code, user_id, now, now + 300, true⟩)

theorem decimalDigits_lt_ten (n : Nat) : ∀ d ∈ decimalDigits n, d < 10 := by
  induction n using Nat.strong_induction_on with
  | _ n ih =>
    unfold decimalDigits
    split
    · next h =>
      intro d hd
      simp at hd
      omega
    · next h =>
      intro d hd
      rw [List.mem_append] at hd
      rcases hd with hd | hd
      · exact ih (n / 10) (Nat.div_lt_self (by omega) (by omega)) d hd
      · simp at hd
        omega

theorem decimalDigits_length_le (k : Nat) :
    ∀ n : Nat, n < 10 ^ (k + 1) → (decimalDigits n).length ≤ k + 1 := by
  induction k with
  | zero =>
    intro n h
    rw [pow_one] at h
    unfold decimalDigits
    rw [dif_pos h]
    simp
  | succ k ih =>
    intro n h
    unfold decimalDigits
    split
    · simp
    · next hn =>
      rw [List.length_append]
      have hdiv : n / 10 < 10 ^ (k + 1) := by
        rw [Nat.div_lt_iff_lt_mul (by omega : (0:Nat) < 10)]
        calc n < 10 ^ (k + 1 + 1) := h
        _ = 10 ^ (k + 1) * 10 := by rw [pow_succ]
      have hrec := ih (n / 10) hdiv
      simp only [List.length_cons, List.length_nil]
      omega

theorem decimalDigits_length_pos (n : Nat) : 1 ≤ (decimalDigits n).length := by
  unfold decimalDigits
  split
  · simp
  · rw [List.length_append]
    simp only [List.length_cons, List.length_nil]
    omega

theorem format06_length (n : Nat) (h : n < 1000000) : (format06 n).length = 6 := by
  have h6 : (decimalDigits n).length ≤ 6 := by
    have hpow : (10:Nat) ^ (5 + 1) = 1000000 := by norm_num
    exact decimalDigits_length_le 5 n (by rw [hpow]; exact h)
  show (List.replicate (6 - ((decimalDigits n).map digitChar).length) '0'
      ++ (decimalDigits n).map digitChar).length = 6
  rw [List.length_append, List.length_replicate, List.length_map]
  omega

theorem format06_digits (n : Nat) : ∀ c ∈ (format06 n).data, c.isDigit = true := by
  intro c hc
  have hc2 : c ∈ List.replicate (6 - ((decimalDigits n).map digitChar).length) '0'
      ++ (decimalDigits n).map digitChar := hc
  rw [List.mem_append] at hc2
  rcases hc2 with hc2 | hc2
  · rw [List.eq_of_mem_replicate hc2]
    decide
  · rw [List.mem_map] at hc2
    obtain ⟨d, hd, hdc⟩ := hc2
    have hdlt : d < 10 := decimalDigits_lt_ten n d hd
    subst hdc
    unfold digitChar
    interval_cases d <;> decide

/-- C9: `generate_access_code` returns a fixed-width 6-digit decimal string,
stores it as a session for the given user expiring 300 seconds after
issuance, and the very same `validate_session` path accepts it (returning
the owning `user_id`) at any time up to the expiry instant and rejects it
with `SessionExpired` at any time strictly past `now + 300`. -/
theorem C9_access_code_spec (st : SessionMap) (now r : Nat) (u : String) :
    (generate_access_code st now r u).1 = .ok (accessCode r) ∧
    (accessCode r).length = 6 ∧
    (∀ c ∈ (accessCode r).data, c.isDigit = true) ∧
    (generate_access_code st now r u).2 (accessCode r)
      = some ⟨accessCode r, u, now, now + 300, true⟩ ∧
    (∀ t, t ≤ now + 300 →
        validate_session (generate_access_code st now r u).2 t (accessCode r)
          = .ok ⟨accessCode r, u, now, now + 300, true⟩) ∧
    (∀ t, now + 300 < t →
        validate_session (generate_access_code st now r u).2 t (accessCode r)
          = .error .SessionExpired) := by
  have hstore : (generate_access_code st now r u).2 (accessCode r)
      = some ⟨accessCode r, u, now, now + 300, true⟩ := by
    show (if accessCode r = accessCode r then _ else _) = _
    rw [if_pos rfl]
  refine ⟨rfl, format06_length (r % 1000000) (Nat.mod_lt r (by omega)),
          format06_digits (r % 1000000), hstore, ?_, ?_⟩
  · intro t ht
    exact (validate_session_eq_ok _ t (accessCode r) _).mpr ⟨hstore, rfl, by simpa using ht⟩
  · intro t ht
    exact validate_session_expired (generate_access_code st now r u).2 t
      (accessCode r) ⟨accessCode r, u, now, now + 300, true⟩ hstore rfl ht

/-- C9 witness: issuing a code for `"u1"` at time 0 with random value 123456
yields the code `"123456"`, which validates at time 300 and is expired at
time 301. -/
theorem C9_witness :
    validate_session (generate_access_code (fun _ => none) 0 123456 "u1").2 300
        (accessCode 123456)
      = .ok ⟨accessCode 123456, "u1", 0, 300, true⟩ ∧
    validate_session (generate_access_code (fun _ => none) 0 123456 "u1").2 301
        (accessCode 123456)
      = .error .SessionExpired := by
  constructor
  · exact (C9_access_code_spec (fun _ => none) 0 123456 "u1").2.2.2.2.1 300 (by omega)
  · exact (C9_access_code_spec (fun _ => none) 0 123456 "u1").2.2.2.2.2 301 (by omega)

end FreeViewer
